import Mathlib

/-!
Verification of `server.py`, a minimal static file server: the program
registers the MIME type `application/javascript` for the `.js` extension,
prints a startup line, and starts the platform HTTP file server on TCP
port 5500.
-/

/-- The process-wide MIME registry: an association list from file extension
to content type. A registration is prepended, so the most recent entry for
an extension wins the lookup. -/
abbrev Registry := List (String × String)

/-- Modelled from the spec: lookup of a content type by extension in the
process-wide MIME registry read by the file-serving handler (the platform
`mimetypes` state, which is not part of this repository's sources). -/
def lookupType : Registry → String → Option String
  | [], _ => none
  | (e, t) :: rest, key => if key = e then some t else lookupType rest key

/-- Modelled from the spec: registering a content type for an extension
(`mimetypes.add_type`); the fresh entry overrides any pre-existing mapping
for that extension regardless of prior state. -/
def addType (contentType extKey : String) (reg : Registry) : Registry :=
  (extKey, contentType) :: reg

/-- The registration at line 6 of `server.py`:
`mimetypes.add_type('application/javascript', '.js')`. -/
def jsRegistry (reg : Registry) : Registry :=
  addType "application/javascript" ".js" reg

/-- The characters strictly after the last dot of a name, or `none` when
the name has no dot. -/
def afterLastDot : List Char → Option (List Char)
  | [] => none
  | c :: rest =>
    match afterLastDot rest with
    | some e => some e
    | none => if c = '.' then some rest else none

/-- Modelled from the spec: the file extension a request path is keyed by,
the suffix starting at the last dot, or the empty string when there is
none. -/
def extensionOf (p : String) : String :=
  match afterLastDot p.data with
  | some e => String.mk ('.' :: e)
  | none => ""

/-- The served root: a finite map from request path to file contents,
treated as an external read-only data source. -/
abbrev FS := List (String × String)

/-- Reading a file of the served root by path. -/
def readFile : FS → String → Option String
  | [], _ => none
  | (q, contents) :: rest, p => if p = q then some contents else readFile rest p

/-- An HTTP response: status code, optional Content-Type header, body. -/
structure Response where
  status : Nat
  contentType : Option String
  body : String
deriving DecidableEq, Repr

/-- Modelled from the spec: the content type the handler sends, looked up
in the MIME registry keyed by file extension, with the platform fallback
`application/octet-stream` for unrecognized extensions. -/
def guessType (reg : Registry) (p : String) : String :=
  match lookupType reg (extensionOf p) with
  | some t => t
  | none => "application/octet-stream"

/-- Modelled from the spec: the GET behavior of the platform file-serving
handler (`http.server.SimpleHTTPRequestHandler`, not part of this
repository's sources): an existing regular file is answered `200 OK` with
the file's bytes and the registry-derived content type; a path that does
not exist under the served root is answered `404 Not Found`. -/
def handleGET (reg : Registry) (fs : FS) (p : String) : Response :=
  match readFile fs p with
  | some contents => ⟨200, some (guessType reg p), contents⟩
  | none => ⟨404, none, ""⟩

/-- Observable startup effects of `server.py`. -/
inductive Event where
  | addType (contentType extKey : String)
  | printLine (line : String)
  | listen (tcpPort : Nat)
deriving DecidableEq, Repr

/-- Whether an event starts the listener. -/
def isListen : Event → Bool
  | Event.listen _ => true
  | _ => false

/-- Whether an event prints a line to standard output. -/
def isPrint : Event → Bool
  | Event.printLine _ => true
  | _ => false

/-- Whether an event registers a MIME type. -/
def isAddType : Event → Bool
  | Event.addType _ _ => true
  | _ => false

/-- Applying a startup event to the MIME registry: only a registration
mutates it. -/
def applyEvent (reg : Registry) : Event → Registry
  | Event.addType t e => addType t e reg
  | _ => reg

/-- The MIME registry after a trace of startup events, starting from an
arbitrary prior platform state. -/
def regAfter (reg : Registry) (tr : List Event) : Registry :=
  tr.foldl applyEvent reg

/-- Effects of importing `server.py` without running it as the main
program: the module top level only performs the registration of line 6. -/
def importTrace : List Event :=
  [Event.addType "application/javascript" ".js"]

/-- The fixed port of `server.py` line 12: `port = 5500`. -/
def port : Nat := 5500

/-- The startup line of `server.py` line 13:
`Serving on http://localhost:{port} (Ctrl-C to stop)`. -/
def startupMessage : String :=
  "Serving on http://localhost:" ++ toString port ++ " (Ctrl-C to stop)"

/-- Effects of running `server.py` as the main program, in order: the
import-time registration, the startup print, then the listener. The
command-line arguments and environment are parameters only to record that
the source consumes neither. -/
def mainTrace (_args : List String) (_env : List (String × String)) :
    List Event :=
  importTrace ++ [Event.printLine startupMessage, Event.listen port]

/-- The events that happen strictly before the listener starts. -/
def preListen (tr : List Event) : List Event :=
  tr.takeWhile (fun e => !isListen e)

/-- Spec §7: startup error taxonomy. -/
inductive StartError where
  | addressInUse
deriving DecidableEq, Repr

/-- Modelled from the spec: the platform socket-binding call performed by
`http.server.test` at startup (not part of this repository's sources);
binding a port that is already in use fails with an address-in-use
error. -/
def bindSocket (portInUse : Bool) : Except StartError Unit :=
  if portInUse then Except.error StartError.addressInUse
  else Except.ok ()

/-- Modelled from the spec: server startup makes a single bind attempt
(the second component counts bind attempts) and propagates its error; no
retry is implemented. -/
def startServer (portInUse : Bool) : Except StartError Unit × Nat :=
  (bindSocket portInUse, 1)

theorem afterLastDot_append_js (xs : List Char) :
    afterLastDot (xs ++ ['.', 'j', 's']) = some ['j', 's'] := by
  induction xs with
  | nil => rfl
  | cons c rest ih => simp [afterLastDot, ih]

theorem extensionOf_endsWith_js (p : String) (xs : List Char)
    (hp : p.data = xs ++ ['.', 'j', 's']) : extensionOf p = ".js" := by
  simp [extensionOf, hp, afterLastDot_append_js]

/-- C1: every file whose name ends in `.js` under the served root is
answered `200` with Content-Type exactly `application/javascript` (no
charset suffix) and the file's exact contents. -/
theorem js_file_served_as_application_javascript
    (reg₀ : Registry) (fs : FS) (p body : String) (xs : List Char)
    (hp : p.data = xs ++ ['.', 'j', 's'])
    (hfile : readFile fs p = some body) :
    handleGET (jsRegistry reg₀) fs p =
      ⟨200, some "application/javascript", body⟩ := by
  have hext := extensionOf_endsWith_js p xs hp
  simp [handleGET, hfile, guessType, hext, jsRegistry, addType, lookupType]

/-- Witness for C1 at the spec's concrete scenario: `app.js` containing
`console.log(1);`. -/
theorem js_file_served_witness :
    handleGET (jsRegistry []) [("app.js", "console.log(1);")] "app.js" =
      ⟨200, some "application/javascript", "console.log(1);"⟩ :=
  js_file_served_as_application_javascript [] _ "app.js" "console.log(1);"
    ['a', 'p', 'p'] (by decide) (by decide)

/-- C2: before the listener starts, the MIME registry maps `.js` to
`application/javascript` whatever its prior state; the registration event
occurs exactly once in the main trace and strictly precedes the listen
event. -/
theorem mime_registered_once_before_listen
    (reg₀ : Registry) (args : List String) (env : List (String × String)) :
    lookupType (regAfter reg₀ (preListen (mainTrace args env))) ".js" =
        some "application/javascript"
    ∧ ((mainTrace args env).filter isAddType).length = 1
    ∧ ∃ i j, i < j
        ∧ (mainTrace args env).get? i =
            some (Event.addType "application/javascript" ".js")
        ∧ (mainTrace args env).get? j = some (Event.listen 5500) := by
  refine ⟨?_, rfl, 0, 2, by decide, rfl, rfl⟩
  simp [mainTrace, importTrace, preListen, regAfter, applyEvent, addType,
    lookupType, isListen, List.takeWhile]

/-- C3: for a path whose extension is not `.js`, the Content-Type served
equals what the prior (platform default) registry assigns, unmodified by
the `.js` registration. -/
theorem non_js_extension_unaffected
    (reg₀ : Registry) (fs : FS) (p : String)
    (h : extensionOf p ≠ ".js") :
    (handleGET (jsRegistry reg₀) fs p).contentType =
      (handleGET reg₀ fs p).contentType := by
  unfold handleGET
  cases hf : readFile fs p with
  | none => rfl
  | some contents => simp [guessType, jsRegistry, addType, lookupType, h]

/-- Witness for C3 at the spec's concrete scenario: `style.css` with a
platform default mapping `.css` to `text/css`. -/
theorem non_js_extension_unaffected_witness :
    extensionOf "style.css" ≠ ".js"
    ∧ (handleGET (jsRegistry [(".css", "text/css")])
          [("style.css", "h1")] "style.css").contentType =
        (handleGET [(".css", "text/css")]
          [("style.css", "h1")] "style.css").contentType
    ∧ (handleGET [(".css", "text/css")]
          [("style.css", "h1")] "style.css").contentType = some "text/css" :=
  ⟨by decide,
   non_js_extension_unaffected [(".css", "text/css")] _ "style.css" (by decide),
   by decide⟩

/-- C4: a GET for an existing regular file under the served root returns
status `200` with a body identical to the file's on-disk contents. -/
theorem existing_file_served_exactly
    (reg : Registry) (fs : FS) (p body : String)
    (hfile : readFile fs p = some body) :
    (handleGET reg fs p).status = 200 ∧ (handleGET reg fs p).body = body := by
  simp [handleGET, hfile]

/-- Witness for C4 at a concrete file. -/
theorem existing_file_served_exactly_witness :
    (handleGET [] [("notes.txt", "hello")] "notes.txt").status = 200
    ∧ (handleGET [] [("notes.txt", "hello")] "notes.txt").body = "hello" :=
  existing_file_served_exactly [] _ "notes.txt" "hello" (by decide)

/-- C5: a GET for a path that does not exist under the served root returns
status `404`. -/
theorem missing_file_404
    (reg : Registry) (fs : FS) (p : String)
    (hnone : readFile fs p = none) :
    (handleGET reg fs p).status = 404 := by
  simp [handleGET, hnone]

/-- Witness for C5 at a concrete missing path. -/
theorem missing_file_404_witness :
    (handleGET [] [] "nope.txt").status = 404 :=
  missing_file_404 [] [] "nope.txt" (by decide)

/-- C6: the listener uses TCP port 5500, and since no flags or environment
variables are consumed, the startup trace is invocation-independent. -/
theorem listens_on_port_5500
    (args : List String) (env : List (String × String)) :
    port = 5500
    ∧ (mainTrace args env).filter isListen = [Event.listen 5500]
    ∧ mainTrace args env = mainTrace [] [] :=
  ⟨rfl, rfl, rfl⟩

/-- C7: starting while port 5500 is already bound fails with an
address-in-use error rather than silently succeeding, and every start
makes exactly one bind attempt (no retry). -/
theorem port_in_use_is_fatal :
    startServer true = (Except.error StartError.addressInUse, 1)
    ∧ ∀ b : Bool, (startServer b).2 = 1 :=
  ⟨rfl, fun _ => rfl⟩

/-- C8: run as the main program, the process prints exactly one startup
line announcing the listening URL, and the print strictly precedes the
listen event. -/
theorem startup_message_before_accept_loop
    (args : List String) (env : List (String × String)) :
    (mainTrace args env).filter isPrint = [Event.printLine startupMessage]
    ∧ ∃ i j, i < j
        ∧ (mainTrace args env).get? i = some (Event.printLine startupMessage)
        ∧ (mainTrace args env).get? j = some (Event.listen port) :=
  ⟨rfl, 1, 2, by decide, rfl, rfl⟩

/-- C9: importing the module installs the `.js` MIME mapping as an
import-time side effect, but the import trace contains no listen event, so
no socket is bound. -/
theorem import_registers_mime_without_listening (reg₀ : Registry) :
    lookupType (regAfter reg₀ importTrace) ".js" = some "application/javascript"
    ∧ importTrace.filter isListen = ([] : List Event) := by
  refine ⟨?_, rfl⟩
  simp [importTrace, regAfter, applyEvent, addType, lookupType]

/-- C10: on every run the startup line is exactly
`Serving on http://localhost:5500 (Ctrl-C to stop)`. -/
theorem startup_message_is_exact
    (args : List String) (env : List (String × String)) :
    startupMessage = "Serving on http://localhost:5500 (Ctrl-C to stop)"
    ∧ (mainTrace args env).filter isPrint =
        [Event.printLine "Serving on http://localhost:5500 (Ctrl-C to stop)"] := by
  have hmsg : startupMessage = "Serving on http://localhost:5500 (Ctrl-C to stop)" := by
    decide
  refine ⟨hmsg, ?_⟩
  rw [← hmsg]
  rfl
